import Mathlib

/-!
Shallow embedding of the acquisition pipeline of taiwan-stock-monitor
(src/downloader_jp.py, src/downloader_tw.py, src/downloader_hk.py).

Remote I/O is modelled by oracles: an attempt at index `n` against the
upstream time-series source either raises an exception (`Resp.err`),
returns an empty frame (`Resp.empty`), or returns a populated frame
(`Resp.ok`).  File-system state is passed explicitly.  Statuses are the
literal strings the Python code stores in its dicts and manifest.
-/

/-- Python `needle in hay` on strings (substring test), structurally on
the character lists. -/
def listContainsSub (hay needle : List Char) : Bool :=
  needle.isPrefixOf hay ||
    match hay with
    | [] => false
    | _ :: t => listContainsSub t needle

/-- Python `needle in hay` for strings. -/
def strContains (hay needle : String) : Bool :=
  listContainsSub hay.data needle.data

/-- Python `str.upper()` (character-wise; exact on the ASCII and CJK
names this code handles). -/
def strUpper (s : String) : String :=
  String.mk (s.data.map Char.toUpper)

/-- Python `str.lower()` (character-wise; exact on the ASCII column
names this code handles). -/
def strLower (s : String) : String :=
  String.mk (s.data.map Char.toLower)

/-- Python `str.strip()`: drop whitespace from both ends. -/
def strTrim (s : String) : String :=
  String.mk (((s.data.dropWhile Char.isWhitespace).reverse.dropWhile Char.isWhitespace).reverse)

/-- Split a character list at the first `&`, if any. -/
def splitAtAmp : List Char → Option (List Char × List Char)
  | [] => none
  | c :: t =>
      if c = '&' then some ([], t)
      else
        match splitAtAmp t with
        | some (a, b) => some (c :: a, b)
        | none => none

/-- Outcome of one `tk.history(...)` call inside a retry loop:
`err` = the call raised, `empty` = returned an empty frame,
`ok` = returned a populated frame. -/
inductive Resp where
  | err : Resp
  | empty : Resp
  | ok : Resp
deriving DecidableEq

namespace JP

/-- `src/downloader_jp.py`, `download_one`, the `for attempt in range(3)`
loop (lines 119-142).  Returns the status string together with the number
of attempts consumed (the attempt count is instrumentation; the Python
function returns only the status).  `attempt = 2` is
`attempt == max_retries - 1`; the final `("failed", attempt)` is the
`return idx, "failed"` after the loop. -/
def jpGo (oracle : Nat → Resp) (attempt : Nat) : String × Nat :=
  if _h : attempt < 3 then
    match oracle attempt with
    | .ok => ("done", attempt + 1)
    | .empty => if attempt = 2 then ("empty", attempt + 1) else jpGo oracle (attempt + 1)
    | .err => if attempt = 2 then ("failed", attempt + 1) else jpGo oracle (attempt + 1)
  else ("failed", attempt)
termination_by 3 - attempt

/-- `download_one` as seen by the scheduler: the manifest index comes back
unchanged with the status of the retry loop. -/
def download_one (idx : Nat) (oracle : Nat → Resp) : Nat × String :=
  (idx, (jpGo oracle 0).1)

end JP

namespace TW

/-- `src/downloader_tw.py`, `download_stock_data`, the
`for attempt in range(2)` loop (lines 95-105) plus the
`return {"status": "empty", ...}` after the loop (line 107).  On an
exception the bare `except` only sleeps and the loop continues; there is
no terminal `failed`/`error` exit from the loop. -/
def twGo (oracle : Nat → Resp) (attempt : Nat) : String × Nat :=
  if _h : attempt < 2 then
    match oracle attempt with
    | .ok => ("success", attempt + 1)
    | .empty => if attempt = 1 then ("empty", attempt + 1) else twGo oracle (attempt + 1)
    | .err => twGo oracle (attempt + 1)
  else ("empty", attempt)
termination_by 2 - attempt

/-- Environment of one `download_stock_data` call: the artifact file seen
by the cache check and whether `yf.Ticker(...)` itself raises (caught by
the outer bare `except`, line 108). -/
structure TwEnv where
  fileExists : Bool
  fileMtimeToday : Bool
  fileSize : Nat
  tickerRaises : Bool
  hist : Nat → Resp

/-- Result dict of `download_stock_data`. -/
structure TwResult where
  status : String
  tkr : String
deriving DecidableEq

/-- Python `item.split('&', 1)`: `none` when no `&` occurs (the
`len(parts) < 2` branch). -/
def twSplitOnce (s : String) : Option (String × String) :=
  match splitAtAmp s.data with
  | some (a, b) => some (String.mk a, String.mk b)
  | none => none

/-- `src/downloader_tw.py`, `download_stock_data` (lines 75-109):
malformed item -> `error` with `tkr = item`; same-day artifact of more
than 1000 bytes -> `exists`; an exception outside the attempt loop ->
`error`; otherwise the status of the attempt loop. -/
def download_stock_data (item : String) (env : TwEnv) : TwResult :=
  match twSplitOnce item with
  | none => ⟨"error", item⟩
  | some (yf_tkr, _name) =>
      if env.fileExists ∧ env.fileMtimeToday ∧ env.fileSize > 1000 then ⟨"exists", yf_tkr⟩
      else if env.tickerRaises then ⟨"error", yf_tkr⟩
      else ⟨(twGo env.hist 0).1, yf_tkr⟩

/-- The tally dict initialised in `main` (line 120):
`stats = {"success": 0, "exists": 0, "empty": 0, "error": 0}`. -/
def stats0 : List (String × Nat) :=
  [("success", 0), ("exists", 0), ("empty", 0), ("error", 0)]

/-- `stats[res["status"]] += 1` (line 128): `none` models the `KeyError`
raised when the key is absent. -/
def statsIncr (stats : List (String × Nat)) (key : String) : Option (List (String × Nat)) :=
  if stats.any (fun p => p.1 = key) then
    some (stats.map fun p => if p.1 = key then (p.1, p.2 + 1) else p)
  else none

end TW

namespace JP

/-- One manifest row (`jp_manifest.csv`): `code`, `name`, `status`. -/
structure Row where
  code : String
  name : String
  status : String
deriving DecidableEq

/-- Metadata of an on-disk artifact file: byte size and mtime (epoch
seconds, as `Int` so ages can be negative like in Python). -/
structure ArtifactInfo where
  size : Nat
  mtime : Int
deriving DecidableEq

/-- `DATA_EXPIRY_SECONDS = 3600` (line 41). -/
def DATA_EXPIRY_SECONDS : Int := 3600

/-- Python `str.zfill n`: left-pad with zeros to width `n`. -/
def zfill (n : Nat) (s : String) : String :=
  if s.length < n then String.mk (List.replicate (n - s.length) '0') ++ s else s

/-- The artifact path `download_one` and `build_manifest` use for a code:
`f"{code.zfill(4)}.T.csv"` (lines 98 and 117), relative to `DATA_DIR`. -/
def jpOutPath (code : String) : String := zfill 4 code ++ ".T.csv"

/-- The freshness decision of `build_manifest` (lines 100-107) for one
row, as a function of the artifact found at the row's path: `done` iff
the file exists, is younger than `DATA_EXPIRY_SECONDS` and larger than
1000 bytes, else `pending`.  The row's stored status is not consulted. -/
def freshStatus (now : Int) (art : Option ArtifactInfo) : String :=
  match art with
  | some a => if now - a.mtime < DATA_EXPIRY_SECONDS ∧ a.size > 1000 then "done" else "pending"
  | none => "pending"

/-- The merge step of `build_manifest` (lines 83-92): keep the previous
manifest when one exists and append rows with status `pending` for
universe codes not yet present; with no previous manifest every universe
row starts `pending`. -/
def mergeManifest (prev : Option (List Row)) (uni : List (String × String)) : List Row :=
  match prev with
  | some mf =>
      mf ++ (uni.filter fun cn => ¬ mf.any fun r => r.code = cn.1).map
        fun cn => ⟨cn.1, cn.2, "pending"⟩
  | none => uni.map fun cn => ⟨cn.1, cn.2, "pending"⟩

/-- `build_manifest` (lines 81-110): merge, then overwrite every row's
status with the freshness decision for its artifact.  `fs` is the data
directory, an association list from file name to artifact metadata. -/
def build_manifest (prev : Option (List Row)) (uni : List (String × String))
    (now : Int) (fs : List (String × ArtifactInfo)) : List Row :=
  (mergeManifest prev uni).map
    fun r => ⟨r.code, r.name, freshStatus now (fs.lookup (jpOutPath r.code))⟩

/-- The scheduler's work selection in `main` (line 154):
`todo = mf[~mf["status"].isin(["done", "empty"])]`. -/
def selectTodo (mf : List Row) : List Row :=
  mf.filter fun r => ¬ (r.status = "done" ∨ r.status = "empty")

/-- Whether the artifact at `art` would pass the freshness check at time
`now` (exists, age below the expiry window, size above 1000 bytes). -/
def isFresh (now : Int) (art : Option ArtifactInfo) : Prop :=
  match art with
  | some a => now - a.mtime < DATA_EXPIRY_SECONDS ∧ a.size > 1000
  | none => False

instance (now : Int) (art : Option ArtifactInfo) : Decidable (isFresh now art) := by
  unfold isFresh
  match art with
  | some a => exact inferInstance
  | none => exact inferInstance

/-- `mf.at[idx, "status"] = status` (line 165): positional update of the
manifest held in memory by the download loop. -/
def setStatus (mf : List Row) (idx : Nat) (st : String) : List Row :=
  match mf.get? idx with
  | some r => mf.set idx ⟨r.code, r.name, st⟩
  | none => mf

/-- One completed future folded into the in-memory manifest. -/
def schedStep (mf : List Row) (e : Nat × String) : List Row := setStatus mf e.1 e.2

/-- The `as_completed` collection loop of `main` (lines 163-169): fold
each completed `(idx, status)` into the manifest, bump the counter, and
flush (`mf.to_csv`) whenever the counter is a multiple of 100.  Returns
the in-memory manifest and the last periodically-flushed manifest. -/
def schedRun : List Row → List Row → Nat → List (Nat × String) → List Row × List Row
  | mf, pers, _, [] => (mf, pers)
  | mf, pers, count, e :: rest =>
      let mf2 := schedStep mf e
      let pers2 := if (count + 1) % 100 = 0 then mf2 else pers
      schedRun mf2 pers2 (count + 1) rest

/-- The manifest on disk after a run interrupted once `m` completions
have been collected: the `finally` block (line 173) writes the in-memory
manifest unconditionally.  The pre-loop disk state is `mf0` because
`build_manifest` saved it (line 109). -/
def persistedAfterInterrupt (mf0 : List Row) (events : List (Nat × String)) (m : Nat) : List Row :=
  (schedRun mf0 mf0 0 (events.take m)).1

end JP

namespace HK

/-- `src/downloader_hk.py`, `classify_security` (lines 37-43): a display
name containing any derivative keyword (upper-cased comparison) is
excluded; everything else is a common stock. -/
def bad_kw : List String :=
  ["CBBC", "WARRANT", "RIGHTS", "ETF", "ETN", "REIT", "BOND", "TRUST", "FUND",
   "牛熊", "權證", "輪證"]

def classify_security (name : String) : String :=
  if bad_kw.any (fun kw => strContains (strUpper name) kw) then "Exclude" else "Common Stock"

/-- `normalize_code5` (lines 27-30): keep the digits, take the last five,
zero-pad to width 5; empty string when no digit remains. -/
def normalize_code5 (s : String) : String :=
  let digits := String.mk (s.data.filter Char.isDigit)
  if digits.length = 0 then ""
  else JP.zfill 5 (String.mk (digits.data.drop (digits.length - 5)))

/-- A parsed row of the upstream securities spreadsheet: stock code and
short name. -/
structure RawListing where
  code : String
  name : String
deriving DecidableEq

/-- The row loop of `get_full_stock_list` (lines 88-96): keep the
`code5&name` composite of every row classified `Common Stock` with a
nonempty normalized code, then `list(set(res))` (modelled as `dedup`,
which like the Python set keeps each string once). -/
def hkBuildRows (rows : List RawListing) : List String :=
  rows.filterMap fun r =>
    if classify_security r.name = "Common Stock" then
      if normalize_code5 r.code = "" then none
      else some (normalize_code5 r.code ++ "&" ++ r.name)
    else none

def hkBuildList (rows : List RawListing) : List String :=
  (hkBuildRows rows).dedup

/-- `threshold = 2000` and `max_retries = 3` (lines 49-50). -/
def hk_threshold : Nat := 2000

def hk_max_retries : Nat := 3

/-- Outcome of one `requests.get` + parse of the upstream list: `err`
covers a raised exception anywhere in the attempt, `ok` a parsed sheet. -/
inductive NetResult where
  | err : NetResult
  | ok : List RawListing → NetResult

/-- The on-disk universe cache (`hk_stock_list_cache.json`): day of its
mtime and the stored list. -/
structure HkCache where
  day : Nat
  rows : List String
deriving DecidableEq

/-- Environment of one `get_full_stock_list` call: current day, parsed
cache file if one exists, and the network outcome of each attempt. -/
structure HkEnv where
  today : Nat
  cache : Option HkCache
  net : Nat → NetResult

/-- The retry loop of `get_full_stock_list` (lines 68-109): up to three
attempts, each making one network call; an attempt whose filtered list
reaches the threshold returns it, otherwise the loop continues.  Returns
the accepted list (if any) and the total number of network calls. -/
def hkFetchLoop (net : Nat → NetResult) (attempt : Nat) (calls : Nat) :
    Option (List String) × Nat :=
  if _h : attempt < hk_max_retries then
    match net attempt with
    | .ok rows =>
        if (hkBuildList rows).length ≥ hk_threshold then (some (hkBuildList rows), calls + 1)
        else hkFetchLoop net (attempt + 1) (calls + 1)
    | .err => hkFetchLoop net (attempt + 1) (calls + 1)
  else (none, calls)
termination_by hk_max_retries - attempt

/-- `get_full_stock_list` (lines 45-117) with the network-call count as
instrumentation: same-day cache of at least `hk_threshold` rows is
returned with zero network calls (lines 53-62); otherwise the retry loop
runs, and on exhaustion the stale cache (any day) or the empty list is
returned (lines 112-117). -/
def get_full_stock_list (env : HkEnv) : List String × Nat :=
  match env.cache with
  | some c =>
      if c.day = env.today ∧ c.rows.length ≥ hk_threshold then (c.rows, 0)
      else
        match hkFetchLoop env.net 0 0 with
        | (some lst, calls) => (lst, calls)
        | (none, calls) => (c.rows, calls)
  | none =>
      match hkFetchLoop env.net 0 0 with
      | (some lst, calls) => (lst, calls)
      | (none, calls) => ([], calls)

end HK

namespace TW

/-- A parsed row of one TWSE listing page: the code and name cells. -/
structure TwRaw where
  code : String
  name : String
deriving DecidableEq

/-- The row loop of `get_full_stock_list` (lines 46-50) for one URL
config: strip the cells and keep `f"{code}{suffix}&{name}"` for every
row whose code is nonempty and does not contain the header marker
`有價證券`.  No name-based classification is applied. -/
def twBuildItems (sfx : String) (rows : List TwRaw) : List String :=
  rows.filterMap fun r =>
    let code := strTrim r.code
    let name := strTrim r.name
    if code ≠ "" ∧ ¬ strContains code "有價證券" then some (code ++ sfx ++ "&" ++ name)
    else none

end TW

/-- A data frame as written by the fetchers, after `reset_index`: the
column names in order, the timezone attached to the date values (`none` =
naive), and the per-row date values in row order. -/
structure Frame where
  cols : List String
  tz : Option Int
  dates : List Int
deriving DecidableEq

/-- The canonical bar schema `cols = ['date','open','high','low','close','volume']`
(`src/downloader_jp.py` line 132). -/
def canonicalCols : List String := ["date", "open", "high", "low", "close", "volume"]

/-- `src/downloader_jp.py`, `download_one` success path (lines 127-134):
lower-case the column names, strip the timezone from the `date` column
when present, and restrict the frame to the canonical columns that are
present, in canonical order.  Rows are written in the response's order. -/
def jpNormalize (f : Frame) : Frame :=
  let lc := f.cols.map strLower
  { cols := canonicalCols.filter (fun c => c ∈ lc),
    tz := if "date" ∈ lc then none else f.tz,
    dates := f.dates }

/-- `src/downloader_tw.py`, `download_stock_data` success path
(lines 99-101): only the column names are lower-cased before `to_csv`;
the timezone, the extra columns and the row order are untouched. -/
def twNormalize (f : Frame) : Frame :=
  { cols := f.cols.map strLower, tz := f.tz, dates := f.dates }

/-- A populated yfinance `history` response after `reset_index`: the
standard columns including `Dividends` and `Stock Splits`, tz-aware
dates (UTC+9 in minutes), two rows. -/
def yfResponse : Frame :=
  ⟨["Date", "Open", "High", "Low", "Close", "Volume", "Dividends", "Stock Splits"],
   some 540, [100, 101]⟩

set_option maxRecDepth 8000

theorem twGo_at_two (oracle : Nat → Resp) : TW.twGo oracle 2 = ("empty", 2) := by
  rw [TW.twGo]
  simp

theorem twGo_status_one (oracle : Nat → Resp) :
    (TW.twGo oracle 1).1 = "success" ∨ (TW.twGo oracle 1).1 = "empty" := by
  rw [TW.twGo]
  cases h : oracle 1 <;> simp [h, twGo_at_two]

theorem twGo_status_zero (oracle : Nat → Resp) :
    (TW.twGo oracle 0).1 = "success" ∨ (TW.twGo oracle 0).1 = "empty" := by
  rw [TW.twGo]
  cases h : oracle 0 <;> simp [h, twGo_status_one]

theorem twGo_snd_one (oracle : Nat → Resp) : 2 ≤ (TW.twGo oracle 1).2 := by
  rw [TW.twGo]
  cases h : oracle 1 <;> simp [h, twGo_at_two]

theorem jpGo_snd_two (oracle : Nat → Resp) : 3 ≤ (JP.jpGo oracle 2).2 := by
  rw [JP.jpGo]
  cases h : oracle 2 <;> simp [h]

theorem jpGo_snd_one (oracle : Nat → Resp) : 2 ≤ (JP.jpGo oracle 1).2 := by
  rw [JP.jpGo]
  cases h : oracle 1 <;> simp [h] <;> exact le_trans (by norm_num) (jpGo_snd_two oracle)

theorem statsIncr_defined (key : String)
    (h : key = "success" ∨ key = "exists" ∨ key = "empty" ∨ key = "error") :
    (TW.statsIncr TW.stats0 key).isSome = true := by
  rcases h with h | h | h | h <;> subst h <;> decide

/-- C1 (counterexample): the Taiwan fetcher, on a symbol whose
`tk.history` call raises on every attempt, does not return `failed`
after 3 attempts: it makes exactly 2 attempts and returns status
`empty` (the post-loop `return {"status": "empty", ...}`). -/
theorem C1_counterexample :
    TW.download_stock_data "2330.TW&TSMC"
        ⟨false, false, 0, false, fun _ => Resp.err⟩
      = ⟨"empty", "2330.TW"⟩
    ∧ TW.twGo (fun _ => Resp.err) 0 = ("empty", 2) := by
  have hsplit : TW.twSplitOnce "2330.TW&TSMC" = some ("2330.TW", "TSMC") := by decide
  have h : TW.twGo (fun _ => Resp.err) 0 = ("empty", 2) := by simp [TW.twGo]
  exact ⟨by simp [TW.download_stock_data, hsplit, h], h⟩

/-- C1 (amended): on a fetch that raises on every attempt, the Japan
fetcher returns `failed` after exactly 3 attempts, while the Taiwan
fetcher makes exactly 2 attempts and returns `empty` — only the Japan
fetcher satisfies the stated retry bound. -/
theorem C1_amended_retry_bounds (oracle : Nat → Resp) (h : ∀ n, oracle n = Resp.err) :
    JP.jpGo oracle 0 = ("failed", 3) ∧ TW.twGo oracle 0 = ("empty", 2) := by
  constructor <;> simp [JP.jpGo, TW.twGo, h]

theorem C1_amended_witness :
    JP.jpGo (fun _ => Resp.err) 0 = ("failed", 3)
    ∧ TW.twGo (fun _ => Resp.err) 0 = ("empty", 2) :=
  C1_amended_retry_bounds (fun _ => Resp.err) (fun _ => rfl)

/-- C5 (counterexample): an empty-but-successful response on the first
attempt is not returned immediately: with an oracle that is empty on
attempt 0 and populated on attempt 1, the Japan fetcher retries and
returns `done` after 2 attempts instead of returning `empty` after 1. -/
theorem C5_counterexample :
    (fun n => if n = 0 then Resp.empty else Resp.ok) 0 = Resp.empty
    ∧ JP.jpGo (fun n => if n = 0 then Resp.empty else Resp.ok) 0 = ("done", 2)
    ∧ JP.jpGo (fun n => if n = 0 then Resp.empty else Resp.ok) 0 ≠ ("empty", 1) := by
  have h : JP.jpGo (fun n => if n = 0 then Resp.empty else Resp.ok) 0 = ("done", 2) := by
    simp [JP.jpGo]
  exact ⟨rfl, h, by rw [h]; decide⟩

/-- C5 (amended): an empty-but-successful response ends the attempt loop
only on the final attempt; on earlier attempts the fetchers retry.  With
every attempt empty, the Japan fetcher returns `empty` after all 3
attempts and the Taiwan fetcher after its 2; and any run whose first
attempt is empty consumes at least 2 attempts. -/
theorem C5_amended_empty_on_last_attempt :
    (∀ oracle : Nat → Resp, (∀ n, oracle n = Resp.empty) →
        JP.jpGo oracle 0 = ("empty", 3) ∧ TW.twGo oracle 0 = ("empty", 2))
    ∧ (∀ oracle : Nat → Resp, oracle 0 = Resp.empty →
        2 ≤ (JP.jpGo oracle 0).2 ∧ 2 ≤ (TW.twGo oracle 0).2) := by
  constructor
  · intro oracle h
    constructor <;> simp [JP.jpGo, TW.twGo, h]
  · intro oracle h0
    have hj : JP.jpGo oracle 0 = JP.jpGo oracle 1 := by
      rw [JP.jpGo]; simp [h0]
    have ht : TW.twGo oracle 0 = TW.twGo oracle 1 := by
      rw [TW.twGo]; simp [h0]
    rw [hj, ht]
    exact ⟨jpGo_snd_one oracle, twGo_snd_one oracle⟩

theorem C5_amended_witness :
    (JP.jpGo (fun _ => Resp.empty) 0 = ("empty", 3)
      ∧ TW.twGo (fun _ => Resp.empty) 0 = ("empty", 2))
    ∧ (2 ≤ (JP.jpGo (fun _ => Resp.empty) 0).2
      ∧ 2 ≤ (TW.twGo (fun _ => Resp.empty) 0).2) :=
  ⟨C5_amended_empty_on_last_attempt.1 (fun _ => Resp.empty) (fun _ => rfl),
   C5_amended_empty_on_last_attempt.2 (fun _ => Resp.empty) rfl⟩

/-- C10: for every input string and every environment, the Taiwan
per-symbol fetcher returns a result whose status is one of `exists`,
`success`, `empty`, `error`, so the tally update
`stats[res["status"]] += 1` in `main` is always defined. -/
theorem C10_status_total (item : String) (env : TW.TwEnv) :
    ((TW.download_stock_data item env).status = "exists"
      ∨ (TW.download_stock_data item env).status = "success"
      ∨ (TW.download_stock_data item env).status = "empty"
      ∨ (TW.download_stock_data item env).status = "error")
    ∧ (TW.statsIncr TW.stats0 (TW.download_stock_data item env).status).isSome = true := by
  have hmem : (TW.download_stock_data item env).status = "exists"
      ∨ (TW.download_stock_data item env).status = "success"
      ∨ (TW.download_stock_data item env).status = "empty"
      ∨ (TW.download_stock_data item env).status = "error" := by
    rw [TW.download_stock_data]
    rcases hs : TW.twSplitOnce item with _ | ⟨tkr, rest⟩
    · simp
    · simp only []
      by_cases hcache : env.fileExists ∧ env.fileMtimeToday ∧ env.fileSize > 1000
      · simp [hcache]
      · by_cases htick : env.tickerRaises
        · simp [hcache, htick]
        · simp only [hcache, htick, if_false, if_neg, Bool.false_eq_true]
          rcases twGo_status_zero env.hist with h | h <;> simp [hcache, htick, h]
  refine ⟨hmem, statsIncr_defined _ ?_⟩
  rcases hmem with h | h | h | h <;> rw [h] <;> simp

theorem build_manifest_status (prev : Option (List JP.Row)) (uni : List (String × String))
    (now : Int) (fs : List (String × JP.ArtifactInfo)) (r : JP.Row)
    (hr : r ∈ JP.build_manifest prev uni now fs) :
    r.status = JP.freshStatus now (fs.lookup (JP.jpOutPath r.code)) := by
  rw [JP.build_manifest, List.mem_map] at hr
  obtain ⟨r0, _, rfl⟩ := hr
  rfl

theorem todo_mem_iff (mf : List JP.Row) (r : JP.Row) :
    r ∈ JP.selectTodo mf ↔ r ∈ mf ∧ r.status ≠ "done" ∧ r.status ≠ "empty" := by
  simp [JP.selectTodo, List.mem_filter, not_or]

theorem freshStatus_eq_done (now : Int) (art : Option JP.ArtifactInfo)
    (h : JP.isFresh now art) : JP.freshStatus now art = "done" := by
  cases art with
  | none => exact absurd h (by simp [JP.isFresh])
  | some a =>
      simp only [JP.isFresh] at h
      simp only [JP.freshStatus]
      rw [if_pos h]

/-- C3: after `build_manifest`, every row's status is the freshness
decision for its artifact, independent of the stored status (the
previous manifest is arbitrary): `pending` when no artifact exists,
`pending` when its size is at most the 1000-byte threshold, `done` when
it is large enough and younger than the expiry window, `pending`
otherwise. -/
theorem C3_freshness_cases (prev : Option (List JP.Row)) (uni : List (String × String))
    (now : Int) (fs : List (String × JP.ArtifactInfo)) (r : JP.Row)
    (hr : r ∈ JP.build_manifest prev uni now fs) :
    r.status = JP.freshStatus now (fs.lookup (JP.jpOutPath r.code))
    ∧ (fs.lookup (JP.jpOutPath r.code) = none → r.status = "pending")
    ∧ (∀ a : JP.ArtifactInfo, fs.lookup (JP.jpOutPath r.code) = some a →
        a.size ≤ 1000 → r.status = "pending")
    ∧ (∀ a : JP.ArtifactInfo, fs.lookup (JP.jpOutPath r.code) = some a →
        1000 < a.size → now - a.mtime < JP.DATA_EXPIRY_SECONDS → r.status = "done")
    ∧ (∀ a : JP.ArtifactInfo, fs.lookup (JP.jpOutPath r.code) = some a →
        1000 < a.size → JP.DATA_EXPIRY_SECONDS ≤ now - a.mtime → r.status = "pending") := by
  have hstat := build_manifest_status prev uni now fs r hr
  refine ⟨hstat, ?_, ?_, ?_, ?_⟩
  · intro hnone
    rw [hstat, hnone]
    rfl
  · intro a ha hsize
    rw [hstat, ha]
    simp only [JP.freshStatus]
    rw [if_neg (by omega)]
  · intro a ha hsize hage
    rw [hstat, ha]
    simp only [JP.freshStatus]
    rw [if_pos ⟨hage, hsize⟩]
  · intro a ha hsize hage
    rw [hstat, ha]
    simp only [JP.freshStatus, JP.DATA_EXPIRY_SECONDS] at hage ⊢
    rw [if_neg (by omega)]

theorem C3_witness :
    (JP.Row.mk "7203" "X" "done").status
      = JP.freshStatus 5000
          (List.lookup (JP.jpOutPath "7203") [("7203.T.csv", JP.ArtifactInfo.mk 2000 4000)]) :=
  (C3_freshness_cases none [("7203", "X")] 5000 [("7203.T.csv", ⟨2000, 4000⟩)]
    ⟨"7203", "X", "done"⟩ (by decide)).1

/-- C4: the scheduler dispatches exactly the manifest rows whose status
is neither `done` nor `empty`, and no row whose artifact is fresh (young
enough and above the size threshold) is ever dispatched, since
`build_manifest` marked it `done`. -/
theorem C4_pending_selection :
    (∀ (mf : List JP.Row) (r : JP.Row),
        r ∈ JP.selectTodo mf ↔ r ∈ mf ∧ r.status ≠ "done" ∧ r.status ≠ "empty")
    ∧ (∀ (prev : Option (List JP.Row)) (uni : List (String × String)) (now : Int)
        (fs : List (String × JP.ArtifactInfo)) (r : JP.Row),
        r ∈ JP.selectTodo (JP.build_manifest prev uni now fs) →
          ¬ JP.isFresh now (fs.lookup (JP.jpOutPath r.code))) := by
  refine ⟨todo_mem_iff, ?_⟩
  intro prev uni now fs r hr hfresh
  obtain ⟨hmem, hdone, _⟩ := (todo_mem_iff _ r).mp hr
  exact hdone ((build_manifest_status prev uni now fs r hmem).trans
    (freshStatus_eq_done now _ hfresh))

theorem C4_witness :
    (JP.Row.mk "7203" "X" "pending" ∈ JP.selectTodo [JP.Row.mk "7203" "X" "pending"]
      ↔ JP.Row.mk "7203" "X" "pending" ∈ [JP.Row.mk "7203" "X" "pending"]
        ∧ (JP.Row.mk "7203" "X" "pending").status ≠ "done"
        ∧ (JP.Row.mk "7203" "X" "pending").status ≠ "empty")
    ∧ ¬ JP.isFresh 9000
        (List.lookup (JP.jpOutPath "7203") [("7203.T.csv", JP.ArtifactInfo.mk 2000 4000)]) :=
  ⟨C4_pending_selection.1 _ _,
   C4_pending_selection.2 none [("7203", "X")] 9000 [("7203.T.csv", ⟨2000, 4000⟩)]
     ⟨"7203", "X", "pending"⟩ (by decide)⟩

/-- C2 (code-bug evaluation): a persisted manifest row with status
`empty` (which has no artifact on disk, since the fetcher writes no file
on an empty response) is reset to `pending` by `build_manifest` on the
next run and therefore selected for dispatch again — the `empty` status
does not survive the manifest rebuild, although the scheduler's own
`~isin(["done", "empty"])` filter shows it was meant to. -/
theorem C2_empty_row_redispatched :
    JP.build_manifest (some [⟨"7203", "X", "empty"⟩]) [("7203", "X")] 1000000 []
      = [⟨"7203", "X", "pending"⟩]
    ∧ JP.selectTodo (JP.build_manifest (some [⟨"7203", "X", "empty"⟩]) [("7203", "X")] 1000000 [])
      = [⟨"7203", "X", "pending"⟩] := by
  constructor <;> decide

theorem schedRun_fst (evs : List (Nat × String)) :
    ∀ (mf pers : List JP.Row) (count : Nat),
      (JP.schedRun mf pers count evs).1 = evs.foldl JP.schedStep mf := by
  induction evs with
  | nil => intro mf pers count; rfl
  | cons e rest ih =>
      intro mf pers count
      simp only [JP.schedRun, List.foldl_cons]
      exact ih _ _ _

theorem schedRun_flush (evs : List (Nat × String)) :
    ∀ (mf pers : List JP.Row) (count : Nat), evs ≠ [] → (count + evs.length) % 100 = 0 →
      (JP.schedRun mf pers count evs).2 = evs.foldl JP.schedStep mf := by
  induction evs with
  | nil => intro mf pers count hne _; exact absurd rfl hne
  | cons e rest ih =>
      intro mf pers count _ hmod
      rcases Decidable.em (rest = []) with hrest | hrest
      · subst hrest
        have hm : (count + 1) % 100 = 0 := by
          simpa using hmod
        simp [JP.schedRun, hm]
      · simp only [JP.schedRun, List.foldl_cons]
        apply ih _ _ _ hrest
        simp only [List.length_cons] at hmod
        omega

/-- C8: the post-interrupt manifest written by the `finally` flush
contains every status collected before the interrupt (whatever the
interrupt point `m`, the persisted manifest is exactly the fold of the
first `m` completions, so at most `K-1 = 99` — in fact zero — completed
statuses are lost), and the periodic flush alone has already persisted
every completion whenever the completion count is a multiple of
`K = 100`. -/
theorem C8_checkpoint_flush :
    (∀ (mf0 : List JP.Row) (events : List (Nat × String)) (m : Nat),
        JP.persistedAfterInterrupt mf0 events m = (events.take m).foldl JP.schedStep mf0)
    ∧ (∀ (mf0 : List JP.Row) (events : List (Nat × String)), events ≠ [] →
        events.length % 100 = 0 →
        (JP.schedRun mf0 mf0 0 events).2 = events.foldl JP.schedStep mf0) := by
  constructor
  · intro mf0 events m
    exact schedRun_fst (events.take m) mf0 mf0 0
  · intro mf0 events hne hmod
    exact schedRun_flush events mf0 mf0 0 hne (by simpa using hmod)

theorem C8_witness :
    JP.persistedAfterInterrupt [] [((0 : Nat), "done")] 1
      = ([((0 : Nat), "done")].take 1).foldl JP.schedStep []
    ∧ (JP.schedRun [] [] 0 (List.replicate 100 ((0 : Nat), "done"))).2
      = (List.replicate 100 ((0 : Nat), "done")).foldl JP.schedStep [] :=
  ⟨C8_checkpoint_flush.1 [] [((0 : Nat), "done")] 1,
   C8_checkpoint_flush.2 [] (List.replicate 100 ((0 : Nat), "done")) (by decide) (by decide)⟩

theorem hkFetchLoop_snd_ge_aux (net : Nat → HK.NetResult) :
    ∀ (k attempt calls : Nat), HK.hk_max_retries - attempt ≤ k →
      calls ≤ (HK.hkFetchLoop net attempt calls).2 := by
  intro k
  induction k with
  | zero =>
      intro attempt calls h
      rw [HK.hkFetchLoop]
      have hge : ¬ attempt < HK.hk_max_retries := by
        simp only [HK.hk_max_retries] at h ⊢
        omega
      simp [hge]
  | succ k ih =>
      intro attempt calls h
      rcases Decidable.em (attempt < HK.hk_max_retries) with hlt | hlt
      · have hrec : calls + 1 ≤ (HK.hkFetchLoop net (attempt + 1) (calls + 1)).2 := by
          apply ih
          simp only [HK.hk_max_retries] at h hlt ⊢
          omega
        rw [HK.hkFetchLoop]
        simp only [hlt, dif_pos]
        cases hnet : net attempt with
        | ok rows =>
            show calls ≤ (if (HK.hkBuildList rows).length ≥ HK.hk_threshold
                then (some (HK.hkBuildList rows), calls + 1)
                else HK.hkFetchLoop net (attempt + 1) (calls + 1)).2
            rcases Decidable.em ((HK.hkBuildList rows).length ≥ HK.hk_threshold) with hlen | hlen
            · rw [if_pos hlen]
              exact Nat.le_succ calls
            · rw [if_neg hlen]
              exact le_trans (Nat.le_succ calls) hrec
        | err => exact le_trans (Nat.le_succ calls) hrec
      · rw [HK.hkFetchLoop]
        simp [hlt]

theorem hkFetchLoop_first_call (net : Nat → HK.NetResult) (attempt calls : Nat)
    (h : attempt < HK.hk_max_retries) :
    calls + 1 ≤ (HK.hkFetchLoop net attempt calls).2 := by
  have hrec : calls + 1 ≤ (HK.hkFetchLoop net (attempt + 1) (calls + 1)).2 :=
    hkFetchLoop_snd_ge_aux net HK.hk_max_retries (attempt + 1) (calls + 1) (by omega)
  rw [HK.hkFetchLoop]
  simp only [h, dif_pos]
  cases hnet : net attempt with
  | ok rows =>
      show calls + 1 ≤ (if (HK.hkBuildList rows).length ≥ HK.hk_threshold
          then (some (HK.hkBuildList rows), calls + 1)
          else HK.hkFetchLoop net (attempt + 1) (calls + 1)).2
      rcases Decidable.em ((HK.hkBuildList rows).length ≥ HK.hk_threshold) with hlen | hlen
      · rw [if_pos hlen]
      · rw [if_neg hlen]
        exact hrec
  | err => exact hrec

/-- C7: with a same-day universe cache present, `get_full_stock_list`
returns the cached list with zero network calls exactly when the cache
holds at least `hk_threshold = 2000` rows; a smaller same-day cache
forces at least one live network attempt. -/
theorem C7_cache_threshold (env : HK.HkEnv) (c : HK.HkCache)
    (hc : env.cache = some c) (hd : c.day = env.today) :
    ((HK.get_full_stock_list env).2 = 0 ↔ HK.hk_threshold ≤ c.rows.length)
    ∧ (HK.hk_threshold ≤ c.rows.length → HK.get_full_stock_list env = (c.rows, 0)) := by
  have hrw : HK.get_full_stock_list env
      = (if c.day = env.today ∧ c.rows.length ≥ HK.hk_threshold then (c.rows, 0)
         else
           match HK.hkFetchLoop env.net 0 0 with
           | (some lst, calls) => (lst, calls)
           | (none, calls) => (c.rows, calls)) := by
    rw [HK.get_full_stock_list, hc]
  rcases Decidable.em (HK.hk_threshold ≤ c.rows.length) with hlen | hlen
  · rw [hrw, if_pos ⟨hd, hlen⟩]
    exact ⟨by simp [hlen], fun _ => rfl⟩
  · rw [hrw, if_neg (fun hcond => hlen hcond.2)]
    have h1 : 1 ≤ (HK.hkFetchLoop env.net 0 0).2 :=
      hkFetchLoop_first_call env.net 0 0 (by simp [HK.hk_max_retries])
    have hsnd : (match HK.hkFetchLoop env.net 0 0 with
        | (some lst, calls) => (lst, calls)
        | (none, calls) => (c.rows, calls)).2 = (HK.hkFetchLoop env.net 0 0).2 := by
      rcases HK.hkFetchLoop env.net 0 0 with ⟨o, calls⟩
      cases o <;> rfl
    refine ⟨?_, fun hx => absurd hx hlen⟩
    rw [hsnd]
    constructor
    · intro hx
      omega
    · intro hx
      exact absurd hx hlen

theorem C7_witness :
    ((HK.get_full_stock_list
        ⟨5, some ⟨5, List.replicate 10 "x"⟩, fun _ => HK.NetResult.err⟩).2 = 0
      ↔ HK.hk_threshold ≤ (HK.HkCache.mk 5 (List.replicate 10 "x")).rows.length)
    ∧ (HK.hk_threshold ≤ (HK.HkCache.mk 5 (List.replicate 10 "x")).rows.length →
        HK.get_full_stock_list
            ⟨5, some ⟨5, List.replicate 10 "x"⟩, fun _ => HK.NetResult.err⟩
          = ((HK.HkCache.mk 5 (List.replicate 10 "x")).rows, 0)) :=
  C7_cache_threshold ⟨5, some ⟨5, List.replicate 10 "x"⟩, fun _ => HK.NetResult.err⟩
    ⟨5, List.replicate 10 "x"⟩ rfl rfl

/-- C6 (counterexample): the Taiwan universe resolver applies no
name-based classification: a row whose display name contains the
non-equity keyword `WARRANT` (classified `Exclude` by the HK
classifier) still enters the resolved Taiwan universe. -/
theorem C6_counterexample :
    HK.classify_security "Beta(WARRANT)" = "Exclude"
    ∧ TW.twBuildItems ".TW" [⟨"0002", "Beta(WARRANT)"⟩] = ["0002.TW&Beta(WARRANT)"] := by
  constructor <;> decide

/-- C6 (amended): keyword classification is applied by the Hong Kong
resolver only: every entry of its resolved universe comes from a row
classified `Common Stock`, and on the universe
[`0001&Alpha`, `0002&Beta(WARRANT)`] exactly the one (zero-padded)
entry for `0001` survives.  The Taiwan resolver adds rows without any
name-keyword filter. -/
theorem C6_amended_hk_only_classifies :
    (∀ (rows : List HK.RawListing) (s : String), s ∈ HK.hkBuildList rows →
        ∃ r, r ∈ rows ∧ HK.classify_security r.name = "Common Stock"
          ∧ s = HK.normalize_code5 r.code ++ "&" ++ r.name)
    ∧ HK.hkBuildList [⟨"0001", "Alpha"⟩, ⟨"0002", "Beta(WARRANT)"⟩] = ["00001&Alpha"] := by
  constructor
  · intro rows s hs
    rw [HK.hkBuildList, List.mem_dedup, HK.hkBuildRows, List.mem_filterMap] at hs
    obtain ⟨r, hr, hf⟩ := hs
    split_ifs at hf with hcl hc5
    exact ⟨r, hr, hcl, (Option.some.inj hf).symm⟩
  · decide

theorem C6_amended_witness :
    HK.hkBuildList [⟨"0001", "Alpha"⟩, ⟨"0002", "Beta(WARRANT)"⟩] = ["00001&Alpha"]
    ∧ ∃ r, r ∈ [HK.RawListing.mk "0001" "Alpha", HK.RawListing.mk "0002" "Beta(WARRANT)"]
        ∧ HK.classify_security r.name = "Common Stock"
        ∧ "00001&Alpha" = HK.normalize_code5 r.code ++ "&" ++ r.name :=
  ⟨C6_amended_hk_only_classifies.2,
   C6_amended_hk_only_classifies.1 _ "00001&Alpha" (by decide)⟩

/-- C9 (counterexample): the Taiwan fetcher writes the artifact after
only lower-casing the column names: on a standard yfinance response the
written frame still carries the non-canonical `dividends` column and
timezone-aware dates, so the artifact is not normalized as claimed. -/
theorem C9_counterexample :
    "dividends" ∈ (twNormalize yfResponse).cols
    ∧ "dividends" ∉ canonicalCols
    ∧ (twNormalize yfResponse).tz ≠ none := by
  refine ⟨by decide, by decide, by decide⟩

/-- C9 (amended): only the Japan fetcher fully normalizes its artifacts
(columns restricted to the canonical schema, timezone stripped whenever a
date column is present, rows kept in the response's order); the Taiwan
fetcher only lower-cases the column names, keeping extra columns, the
timezone and the row order.  Neither fetcher re-sorts rows. -/
theorem C9_amended_normalization :
    (∀ f : Frame, (∀ c, c ∈ (jpNormalize f).cols → c ∈ canonicalCols)
      ∧ ("date" ∈ f.cols.map strLower → (jpNormalize f).tz = none)
      ∧ (jpNormalize f).dates = f.dates)
    ∧ (∀ f : Frame, (twNormalize f).cols = f.cols.map strLower
      ∧ (twNormalize f).tz = f.tz ∧ (twNormalize f).dates = f.dates) := by
  constructor
  · intro f
    refine ⟨?_, ?_, rfl⟩
    · intro c hc
      exact (List.mem_filter.mp hc).1
    · intro hdate
      simp [jpNormalize, hdate]
  · intro f
    exact ⟨rfl, rfl, rfl⟩

theorem C9_amended_witness :
    (jpNormalize yfResponse).tz = none
    ∧ (twNormalize yfResponse).cols = yfResponse.cols.map strLower :=
  ⟨(C9_amended_normalization.1 yfResponse).2.1 (by decide),
   (C9_amended_normalization.2 yfResponse).1⟩


